import Mathlib

/-!
Verification of the query composition and result normalization engine of the
open-knowledge-graph-resources repository, together with the format summary of
its catalog builder.

The development shallowly embeds the relevant parts of `src/app.py` and
`src/scripts/build_catalog.py`:

* the two SPARQL query templates and their `LIMIT` interpolation;
* the transport client `run_wdqs` (429 handling, `Retry-After` parsing via
  Python `int`, single retry, `raise_for_status`);
* the flattener `query_to_df` turning SPARQL JSON binding rows into flat rows;
* the enrichment columns (`Has website`, `Has license`, `Official website`)
  and the two `df.sort_values` calls with their multi-key ordering;
* `summarize_formats` from the catalog builder.

Python strings are Lean `String`s, Python `int` is Lean `Int`, dictionaries
are association lists, and a computation that may raise is embedded as
`Except AppError`.
-/

namespace KG

/-- Errors the embedded Python code can raise.  `invalidArgument` is the
error class the specification postulates for a malformed query parameter;
`valueError` models Python `ValueError` (raised e.g. by `int()` on a
non-numeric string); `keyError k` models a Python `KeyError` on dictionary
key `k`; `remoteError s` models `requests.HTTPError` carrying HTTP status
`s`, as raised by `Response.raise_for_status`. -/
inductive AppError where
  | invalidArgument
  | valueError
  | keyError (key : String)
  | remoteError (status : Nat)
deriving DecidableEq, Repr

/-- The two resource domains selectable in the sidebar of `app.py`:
`RESOURCE_KIND` is either "Ontologies + Controlled Vocabularies" or
"Software (semantic / KG tools)". -/
inductive QueryDomain where
  | ontologyVocabTaxonomy
  | software
deriving DecidableEq, Repr

/-! ### Python string helpers -/

/-- Characters stripped by Python `str.strip()` (ASCII whitespace:
space, tab, newline, carriage return, vertical tab, form feed). -/
def pyWhitespace (c : Char) : Bool :=
  c = ' ' || c = '\t' || c = '\n' || c = '\r' || c = Char.ofNat 11 || c = Char.ofNat 12

/-- Python `str.strip()`: remove leading and trailing whitespace. -/
def pyStrip (s : String) : String :=
  String.mk (((s.data.dropWhile pyWhitespace).reverse.dropWhile pyWhitespace).reverse)

/-- ASCII decimal digit test, as accepted by Python `int()`. -/
def pyDigit (c : Char) : Bool :=
  '0' ≤ c && c ≤ '9'

/-- Numeric value of a list of decimal digit characters. -/
def digitsVal (ds : List Char) : Nat :=
  ds.foldl (fun n c => n * 10 + (c.toNat - 48)) 0

/-- Value of a nonempty all-digit character list, as Python `int()` would
compute it; `ValueError` otherwise. -/
def pyIntDigits (ds : List Char) : Except AppError Int :=
  if ds ≠ [] ∧ ds.all pyDigit then Except.ok (Int.ofNat (digitsVal ds))
  else Except.error AppError.valueError

/-- Python `int(s)` on a string: surrounding whitespace is ignored, an
optional single sign is allowed, the rest must be nonempty decimal digits,
otherwise `ValueError` is raised.  (Underscore digit grouping and non-ASCII
digits, which the claims never exercise, are not modelled.) -/
def pyInt (s : String) : Except AppError Int :=
  match ((s.data.dropWhile pyWhitespace).reverse.dropWhile pyWhitespace).reverse with
  | [] => Except.error AppError.valueError
  | '+' :: ds => pyIntDigits ds
  | '-' :: ds => (pyIntDigits ds).map (fun n => -n)
  | ds => pyIntDigits ds

/-- Splitting a character list at every occurrence of the single character
`c`; the result always has at least one (possibly empty) segment, exactly
like Python `re.split`. -/
def splitChar (c : Char) : List Char → List (List Char)
  | [] => [[]]
  | x :: xs =>
    if x = c then [] :: splitChar c xs
    else
      match splitChar c xs with
      | [] => [[x]]
      | seg :: segs => (x :: seg) :: segs

/-! ### Result flattener (`query_to_df` in `app.py`) -/

/-- One SPARQL JSON result row (`results.bindings[i]`): a mapping from bound
variable names to their string values.  A variable that is unbound in the
row is simply absent from the mapping.  (In the JSON each present variable
maps to an object `{"value": ...}`; since the code only ever reads the
`value` member of a present variable, the binding is embedded directly as
name-to-value.) -/
abbrev RawBinding := List (String × String)

/-- Python `b[key]["value"]`: a `KeyError` is raised when `key` is absent. -/
def getValue (b : RawBinding) (key : String) : Except AppError String :=
  match b.lookup key with
  | some v => Except.ok v
  | none => Except.error (AppError.keyError key)

/-- Python `b.get(key, {}).get("value", "")`: the empty string when `key`
is absent. -/
def getValueD (b : RawBinding) (key : String) : String :=
  (b.lookup key).getD ""

/-- One row of the DataFrame built by `query_to_df`.  Field names follow the
column names used in `app.py`: `item` is "Item", `wikidata` is "Wikidata",
`officialWebsites` is "Official websites", `licenses` is "Licenses",
`partOf` is "Part of", `latestRelease` is "latest release". -/
structure FlatRow where
  item : String
  wikidata : String
  officialWebsites : String
  licenses : String
  partOf : String
  latestRelease : String
deriving DecidableEq, Repr

/-- The row constructed for one binding inside the loop of `query_to_df`:
`itemLabel` and `item` are accessed unconditionally (Python `b[...]`), the
remaining four fields fall back to the empty string when absent
(`b.get(..., {}).get("value", "")`).  Python evaluates the dictionary
literal in source order, so a missing `itemLabel` raises before a missing
`item` is noticed. -/
def flattenBinding (b : RawBinding) : Except AppError FlatRow := do
  let itemLabel ← getValue b "itemLabel"
  let itemURI ← getValue b "item"
  pure { item := itemLabel
         wikidata := itemURI
         officialWebsites := getValueD b "officialWebsites"
         licenses := getValueD b "licenses"
         partOf := getValueD b "partOf"
         latestRelease := getValueD b "latestReleaseDate" }

/-- The whole result-flattening loop of `query_to_df` over
`data["results"]["bindings"]`. -/
def query_to_df (bindings : List RawBinding) : Except AppError (List FlatRow) :=
  bindings.mapM flattenBinding

/-! ### Enrichment columns -/

/-- Column `Has website` (and, applied to `licenses`, column `Has license`):
`df["Official websites"].str.strip().ne("")`. -/
def hasWebsite (officialWebsites : String) : Bool :=
  pyStrip officialWebsites != ""

/-- Column `Has license`: `df["Licenses"].str.strip().ne("")`. -/
def hasLicense (licenses : String) : Bool :=
  pyStrip licenses != ""

/-- Embedding of `df["Official websites"].str.split(" | ")`.  pandas
`Series.str.split` treats a pattern whose length is not 1 as a regular
expression, and the regex " | " is the alternation of " " and " ", i.e. it
matches exactly one space; so the call splits the string at every single
space character (it does not split at the literal three-character
delimiter). -/
def pySplitWebsites (s : String) : List String :=
  (splitChar ' ' s.data).map String.mk

/-- Column `Official website`:
`df["Official websites"].str.split(" | ").str[0].fillna("")`.  The split of
a string always yields at least one element, so `.str[0]` is total and
`.fillna("")` never fires on string input; `headD ""` reflects both. -/
def primaryWebsite (officialWebsites : String) : String :=
  (pySplitWebsites officialWebsites).headD ""

/-- Modelled from the spec: the first " | "-delimited segment of a string,
i.e. its prefix up to the first occurrence of the three-character delimiter
" | " (the whole string when the delimiter does not occur).  This follows
the specification's wording for `primaryWebsite` and is compared against
the code's `primaryWebsite` above. -/
def firstSegmentSpec (s : String) : String :=
  String.mk (firstSegAux s.data)
where
  firstSegAux : List Char → List Char
    | [] => []
    | x :: xs =>
      if [' ', '|', ' '].isPrefixOf (x :: xs) then []
      else x :: firstSegAux xs

/-! ### Query builder (`BASE_QUERY_ONTO_VOCAB`, `BASE_QUERY_SOFTWARE`) -/

/-- The SELECT line of both query templates that aggregates the "part of" labels into the `?partOf` result variable -/
def partOfSelectLine : String :=
  "  (GROUP_CONCAT(DISTINCT ?partOfLabel; separator=\" | \") AS ?partOf)\n"

/-- Text of `BASE_QUERY_ONTO_VOCAB` before its `?partOf` aggregation line -/
def ontoQueryHead : String :=
  "\n"
  ++ "SELECT\n"
  ++ "  ?item\n"
  ++ "  ?itemLabel\n"
  ++ "  (GROUP_CONCAT(DISTINCT STR(?officialWebsite); separator=\" | \") AS ?officialWebsites)\n"
  ++ "  (GROUP_CONCAT(DISTINCT ?licenseLabel; separator=\" | \") AS ?licenses)\n"

/-- Text of `BASE_QUERY_ONTO_VOCAB` between its `?partOf` aggregation line and the interpolated `LIMIT` value -/
def ontoQueryMid : String :=
  "WHERE \x7b\n"
  ++ "  SERVICE wikibase:label \x7b bd:serviceParam wikibase:language \"[AUTO_LANGUAGE],mul,en\". \x7d\n"
  ++ "\n"
  ++ "  \x7b\n"
  ++ "    SELECT DISTINCT ?item WHERE \x7b\n"
  ++ "      \x7b\n"
  ++ "        ?item p:P31 ?statement0 .\n"
  ++ "        ?statement0 (ps:P31/(wdt:P279*)) wd:Q324254 .  # ontology\n"
  ++ "      \x7d\n"
  ++ "      UNION\n"
  ++ "      \x7b\n"
  ++ "        ?item p:P31 ?statement1 .\n"
  ++ "        ?statement1 (ps:P31/(wdt:P279*)) wd:Q1469824 . # controlled vocabulary\n"
  ++ "      \x7d\n"
  ++ "      UNION\n"
  ++ "      \x7b\n"
  ++ "        ?item p:P31 ?statement2 .\n"
  ++ "        ?statement2 (ps:P31/(wdt:P279*)) wd:Q8269924 .  # taxonomy  <-- add this\n"
  ++ "      \x7d\n"
  ++ "    \x7d\n"
  ++ "    LIMIT "

/-- Text of `BASE_QUERY_ONTO_VOCAB` after the interpolated `LIMIT` value -/
def ontoQueryPost : String :=
  "\n"
  ++ "  \x7d\n"
  ++ "\n"
  ++ "  OPTIONAL \x7b ?item wdt:P856 ?officialWebsite . \x7d\n"
  ++ "  OPTIONAL \x7b ?item wdt:P275 ?license . \x7d\n"
  ++ "  OPTIONAL \x7b ?item wdt:P361 ?partOfEntity . \x7d\n"
  ++ "\n"
  ++ "  SERVICE wikibase:label \x7b\n"
  ++ "    bd:serviceParam wikibase:language \"[AUTO_LANGUAGE],mul,en\".\n"
  ++ "    ?license rdfs:label ?licenseLabel .\n"
  ++ "    ?partOfEntity rdfs:label ?partOfLabel .\n"
  ++ "  \x7d\n"
  ++ "\x7d\n"
  ++ "GROUP BY ?item ?itemLabel\n"

/-- Text of `BASE_QUERY_SOFTWARE` before its `?partOf` aggregation line -/
def swQueryHead : String :=
  "\n"
  ++ "SELECT\n"
  ++ "  ?item\n"
  ++ "  ?itemLabel\n"
  ++ "  (GROUP_CONCAT(DISTINCT STR(?officialWebsite); separator=\" | \") AS ?officialWebsites)\n"
  ++ "  (GROUP_CONCAT(DISTINCT ?licenseLabel; separator=\" | \") AS ?licenses)\n"

/-- Text of `BASE_QUERY_SOFTWARE` between its `?partOf` aggregation line and the interpolated `LIMIT` value -/
def swQueryMid : String :=
  "  (SAMPLE(?version) AS ?latestVersion)\n"
  ++ "  (MAX(?pubDate) AS ?latestReleaseDate)\n"
  ++ "WHERE \x7b\n"
  ++ "  SERVICE wikibase:label \x7b bd:serviceParam wikibase:language \"[AUTO_LANGUAGE],mul,en\". \x7d\n"
  ++ "\n"
  ++ "  \x7b\n"
  ++ "    SELECT DISTINCT ?item WHERE \x7b\n"
  ++ "      ?item wdt:P31/wdt:P279* wd:Q124653107 .  # software\n"
  ++ "    \x7d\n"
  ++ "    LIMIT "

/-- Text of `BASE_QUERY_SOFTWARE` after the interpolated `LIMIT` value -/
def swQueryPost : String :=
  "\n"
  ++ "  \x7d\n"
  ++ "\n"
  ++ "  OPTIONAL \x7b ?item wdt:P856 ?officialWebsite . \x7d\n"
  ++ "  OPTIONAL \x7b ?item wdt:P275 ?license . \x7d\n"
  ++ "  OPTIONAL \x7b ?item wdt:P361 ?partOfEntity . \x7d\n"
  ++ "\n"
  ++ "  # P348 statement + P577 qualifier on that statement\n"
  ++ "  OPTIONAL \x7b\n"
  ++ "    ?item p:P348 ?verStmt .\n"
  ++ "    ?verStmt ps:P348 ?version .\n"
  ++ "    OPTIONAL \x7b ?verStmt pq:P577 ?pubDate . \x7d\n"
  ++ "  \x7d\n"
  ++ "\n"
  ++ "    # P348 statement + P577 qualifier on that statement\n"
  ++ "  OPTIONAL \x7b\n"
  ++ "    ?item p:P348 ?verStmt .\n"
  ++ "    ?verStmt ps:P348 ?version .\n"
  ++ "    OPTIONAL \x7b ?verStmt pq:P577 ?pubDate . \x7d\n"
  ++ "  \x7d\n"
  ++ "\n"
  ++ "  SERVICE wikibase:label \x7b\n"
  ++ "    bd:serviceParam wikibase:language \"[AUTO_LANGUAGE],mul,en\".\n"
  ++ "    ?license rdfs:label ?licenseLabel .\n"
  ++ "    ?partOfEntity rdfs:label ?partOfLabel .\n"
  ++ "  \x7d\n"
  ++ "\x7d\n"
  ++ "GROUP BY ?item ?itemLabel\n"

/-- The ontology / controlled-vocabulary / taxonomy query template of
`app.py`, an f-string into which the slider value `LIMIT` is interpolated
once (Python `str` of the integer).  The text is reproduced verbatim. -/
def BASE_QUERY_ONTO_VOCAB (limit : Int) : String :=
  ontoQueryHead ++ partOfSelectLine ++ ontoQueryMid ++ toString limit ++ ontoQueryPost

/-- The software query template of `app.py`, an f-string into which the
slider value `LIMIT` is interpolated once. -/
def BASE_QUERY_SOFTWARE (limit : Int) : String :=
  swQueryHead ++ partOfSelectLine ++ swQueryMid ++ toString limit ++ swQueryPost

/-- The query text selected for a domain at a given result limit:
`query = BASE_QUERY_ONTO_VOCAB if RESOURCE_KIND.startswith("Ontologies") else BASE_QUERY_SOFTWARE`. -/
def queryText (d : QueryDomain) (limit : Int) : String :=
  match d with
  | QueryDomain.ontologyVocabTaxonomy => BASE_QUERY_ONTO_VOCAB limit
  | QueryDomain.software => BASE_QUERY_SOFTWARE limit

/-- The query builder, `build(domain, resultLimit)` in the specification's
terms.  In `app.py` building the query is plain f-string interpolation with
no validation of the limit whatsoever, so the computation never raises: the
result is `Except.ok` for every integer limit.  (The sidebar slider
constrains the value to the range 50 to 2000 in the app itself.) -/
def build (d : QueryDomain) (resultLimit : Int) : Except AppError String :=
  Except.ok (queryText d resultLimit)

/-- The sidebar slider for `LIMIT`: `st.sidebar.slider("Max results", 50, 2000, 500, step=50)`;
its minimum selectable value is 50 and its maximum 2000. -/
def limitSliderRange : Int × Int :=
  (50, 2000)

/-! ### Transport client (`run_wdqs` in `app.py`) -/

/-- One HTTP response from the remote endpoint, as far as `run_wdqs`
inspects it: the status code, the optional `Retry-After` header (the only
header the code reads), and the JSON body (kept abstract as a string). -/
structure HttpResponse where
  status : Nat
  retryAfter : Option String := none
  body : String := ""
deriving DecidableEq, Repr

/-- Python `r.raise_for_status()` followed by `r.json()`: an
`requests.HTTPError` carrying the status is raised for a 4xx or 5xx
status, otherwise the body is returned. -/
def raise_for_status (r : HttpResponse) : Except AppError String :=
  if 400 ≤ r.status ∧ r.status < 600 then Except.error (AppError.remoteError r.status)
  else Except.ok r.body

deriving instance DecidableEq for Except

/-- Result of one execution of `run_wdqs`: how many HTTP requests were
issued, the durations slept (in seconds), and the outcome. -/
structure TransportRun where
  requests : Nat
  sleeps : List Int
  outcome : Except AppError String
deriving DecidableEq, Repr

/-- The transport client `run_wdqs`.  The environment `env` maps the index
of each request the client would issue (0 for the first, 1 for the retry)
to the response the endpoint returns for it.  Mirroring the source: the
first GET is issued; if its status is 429 the code evaluates
`int(r.headers.get("Retry-After", "5"))` — which raises `ValueError` when
the header is present but not a number — sleeps that many seconds, and
issues exactly one further GET; then `raise_for_status` settles the
outcome.  No loop exists, so no third request can ever be issued. -/
def run_wdqs (env : Nat → HttpResponse) : TransportRun :=
  let r := env 0
  if r.status = 429 then
    match pyInt (r.retryAfter.getD "5") with
    | Except.error e => { requests := 1, sleeps := [], outcome := Except.error e }
    | Except.ok retry_after =>
      let r2 := env 1
      { requests := 2, sleeps := [retry_after], outcome := raise_for_status r2 }
  else
    { requests := 1, sleeps := [], outcome := raise_for_status r }

/-! ### Date parsing and the two `df.sort_values` calls -/

/-- Embedding of `pd.to_datetime(value, errors="coerce")` on the strings
that occur in the `latest release` column, restricted to the ISO
`YYYY-MM-DD` date shape (Wikidata `P577` qualifier values in the query
results): four digits, dash, two digits in 1..12, dash, two digits in
1..31.  Any other string — in particular the empty string a missing
`latestReleaseDate` was defaulted to — is unparseable and becomes `NaT`,
embedded as `none`. -/
def toDatetime (s : String) : Option (Nat × Nat × Nat) :=
  match splitChar '-' s.data with
  | [y, m, d] =>
    if y.length = 4 ∧ y.all pyDigit ∧ m.length = 2 ∧ m.all pyDigit ∧ d.length = 2 ∧ d.all pyDigit then
      if 1 ≤ digitsVal m ∧ digitsVal m ≤ 12 ∧ 1 ≤ digitsVal d ∧ digitsVal d ≤ 31 then
        some (digitsVal y, digitsVal m, digitsVal d)
      else none
    else none
  | _ => none

/-- Encoding of the `latest release` sort key with `ascending=False` and
pandas' default `na_position="last"`: a parsed date sorts earlier (under
the ascending order on `Int`) the later it is, and `NaT` sorts after every
parsed date.  Every parsed date encodes to a non-positive integer, `NaT`
to 1. -/
def dateCode (o : Option (Nat × Nat × Nat)) : Int :=
  match o with
  | some (y, m, d) => -(Int.ofNat (y * 10000 + m * 100 + d))
  | none => 1

/-- Encoding of a boolean sort key with `ascending=False`: `True` sorts
before `False`. -/
def boolDescNum (b : Bool) : Nat :=
  if b then 0 else 1

/-- Encoding of the `Item` sort key with `ascending=True`: Python compares
strings lexicographically by code point, which is the lexicographic order
on the list of code points. -/
def nameKey (s : String) : List Nat :=
  s.data.map Char.toNat

/-- The full per-row sort key of the software branch,
`df.sort_values(by=["latest release", "Has website", "Has license", "Item"], ascending=[False, False, False, True])`,
with the descending keys already encoded so that plain ascending
lexicographic comparison realizes the pandas ordering. -/
def swRecKey (r : FlatRow) : Int ×ₗ (Nat ×ₗ (Nat ×ₗ List Nat)) :=
  toLex (dateCode (toDatetime r.latestRelease),
    toLex (boolDescNum (hasWebsite r.officialWebsites),
      toLex (boolDescNum (hasLicense r.licenses), nameKey r.item)))

/-- The full per-row sort key of the ontologies / vocabularies branch,
`df.sort_values(by=["Has website", "Has license", "Item"], ascending=[False, False, True])`. -/
def ovRecKey (r : FlatRow) : Nat ×ₗ (Nat ×ₗ List Nat) :=
  toLex (boolDescNum (hasWebsite r.officialWebsites),
    toLex (boolDescNum (hasLicense r.licenses), nameKey r.item))

/-- Comparison used to realize a multi-key `df.sort_values`: rows carry
their input position, and the position is appended to the record key as the
final tiebreaker.  This is exactly the semantics of the stable multi-column
lexsort pandas performs: equal record keys are ordered by input position. -/
def keyedLe {α K : Type} [LinearOrder K] (key : α → K) (p q : Nat × α) : Bool :=
  decide (toLex (key p.2, p.1) ≤ toLex (key q.2, q.1))

/-- Insertion of an element into a sorted list, keeping it before the first
element not below it. -/
def insertSorted {α : Type} (le : α → α → Bool) (x : α) : List α → List α
  | [] => [x]
  | y :: ys => if le x y then x :: y :: ys else y :: insertSorted le x ys

/-- Insertion sort.  Because the comparison `keyedLe` it is used with below
is a linear order on position-tagged rows (distinct rows always carry
distinct positions), every comparison sort produces the same output, so the
choice of algorithm is immaterial; insertion sort keeps the model
executable. -/
def insertionSort {α : Type} (le : α → α → Bool) : List α → List α
  | [] => []
  | x :: xs => insertSorted le x (insertionSort le xs)

/-- A multi-key `df.sort_values` over rows `l` with per-row key `key`:
tag each row with its position, sort by key with position as final
tiebreaker, and drop the positions again. -/
def sort_values {α K : Type} [LinearOrder K] (key : α → K) (l : List α) : List α :=
  (insertionSort (keyedLe key) l.enum).map Prod.snd

/-- The software branch sort:
`df.sort_values(by=["latest release", "Has website", "Has license", "Item"], ascending=[False, False, False, True])`. -/
def sort_values_software (l : List FlatRow) : List FlatRow :=
  sort_values swRecKey l

/-- The ontologies / vocabularies branch sort:
`df.sort_values(by=["Has website", "Has license", "Item"], ascending=[False, False, True])`. -/
def sort_values_onto (l : List FlatRow) : List FlatRow :=
  sort_values ovRecKey l

/-- Column projection of the software branch: `desired_cols` in the
`is_software` branch of `app.py`. -/
def desired_cols_software : List String :=
  ["Item", "latest release", "Licenses", "Official website", "Wikidata page"]

/-- Column projection of the ontologies / vocabularies branch:
`desired_cols` in the `else` branch of `app.py`. -/
def desired_cols_onto : List String :=
  ["Item", "Licenses", "Official website", "Wikidata page", "Part of"]

/-! ### Catalog builder (`scripts/build_catalog.py`) -/

/-- One entry of a resource's `distributions` list. -/
structure Distribution where
  format : Option String := none
  media_type : Option String := none
  download_url : Option String := none
deriving DecidableEq, Repr

/-- One resource record loaded from a YAML file. -/
structure Resource where
  id : String
  name : String
  kind : String
  domain : Option String := none
  free : Option Bool := none
  publisher : Option String := none
  description : Option String := none
  license_name : Option String := none
  license_url : Option String := none
  homepage : Option String := none
  distributions : List Distribution := []
deriving DecidableEq, Repr

/-- The filter of the list comprehension
`fmts = [d.format for d in r.distributions if d.format]`: Python keeps a
format only when it is truthy, i.e. neither `None` nor the empty string. -/
def truthyFormat (d : Distribution) : Option String :=
  match d.format with
  | none => none
  | some s => if s = "" then none else some s

/-- The deduplication loop of `summarize_formats`: walk the list keeping
the first occurrence of each value, with `seen` accumulating the values
already emitted. -/
def dedupKeepFirst (seen : List String) : List String → List String
  | [] => []
  | f :: fs => if f ∈ seen then dedupKeepFirst seen fs else f :: dedupKeepFirst (f :: seen) fs

/-- The function `summarize_formats(r)` of `build_catalog.py`: the truthy
distribution formats, deduplicated preserving first occurrence, joined
with "|". -/
def summarize_formats (r : Resource) : String :=
  String.intercalate "|" (dedupKeepFirst [] (r.distributions.filterMap truthyFormat))

/-! ### Concrete fixtures used by witnesses and counterexamples -/

/-- Environment answering the first request with 429 and `Retry-After: 2`
and the retry with 200. -/
def envRetryThenOk : Nat → HttpResponse :=
  fun i => if i = 0 then { status := 429, retryAfter := some "2", body := "" } else { status := 200, body := "ok-json" }

/-- Environment answering both the first request and the retry with 429. -/
def envTwo429 : Nat → HttpResponse :=
  fun i => if i = 0 then { status := 429, retryAfter := some "2" } else { status := 429, retryAfter := some "7" }

/-- Environment answering the first request with 429 without a
`Retry-After` header, and the retry with 200. -/
def envNoHeader : Nat → HttpResponse :=
  fun i => if i = 0 then { status := 429 } else { status := 200, body := "ok-json" }

/-- Environment answering the first request with 429 and a `Retry-After`
header that is not a number. -/
def envBadHeader : Nat → HttpResponse :=
  fun _ => { status := 429, retryAfter := some "abc" }

/-- A software-domain flat row whose `latest release` parses to 2020-01-01. -/
def swRow2020 : FlatRow :=
  { item := "Alpha", wikidata := "http://www.wikidata.org/entity/Q1",
    officialWebsites := "", licenses := "", partOf := "", latestRelease := "2020-01-01" }

/-- A software-domain flat row whose `latest release` is unparseable. -/
def swRowBad : FlatRow :=
  { item := "Beta", wikidata := "http://www.wikidata.org/entity/Q2",
    officialWebsites := "", licenses := "", partOf := "", latestRelease := "not-a-date" }

/-- A software-domain flat row whose `latest release` parses to 2022-05-01. -/
def swRow2022 : FlatRow :=
  { item := "Gamma", wikidata := "http://www.wikidata.org/entity/Q3",
    officialWebsites := "", licenses := "", partOf := "", latestRelease := "2022-05-01" }

/-- A binding row carrying only the two mandatory variables. -/
def bindingMandatoryOnly : RawBinding :=
  [("itemLabel", "Foo"), ("item", "http://www.wikidata.org/entity/Q42")]

/-- A binding row lacking `itemLabel` entirely. -/
def bindingNoLabel : RawBinding :=
  [("item", "http://www.wikidata.org/entity/Q42")]

/-- A binding row with `itemLabel` but without `item`. -/
def bindingNoItem : RawBinding :=
  [("itemLabel", "Foo"), ("officialWebsites", "http://x")]

/-- A binding row from the software query carrying a nonempty `partOf`
aggregate. -/
def bindingSwWithPartOf : RawBinding :=
  [("itemLabel", "Tool"), ("item", "http://www.wikidata.org/entity/Q7"),
   ("partOf", "X")]

/-- The flat row the flattener produces for `bindingSwWithPartOf`. -/
def rowSwWithPartOf : FlatRow :=
  { item := "Tool", wikidata := "http://www.wikidata.org/entity/Q7",
    officialWebsites := "", licenses := "", partOf := "X", latestRelease := "" }

/-- A resource with three distributions of formats "ttl", "ttl", "csv". -/
def resourceTtlTtlCsv : Resource :=
  { id := "r1", name := "R1", kind := "ontology",
    distributions := [{ format := some "ttl" }, { format := some "ttl" }, { format := some "csv" }] }

/-! ### Helper lemmas about the lexicographic sort machinery -/

theorem lex_le_fst {α β : Type} [PartialOrder α] [Preorder β] {a b : α} {x y : β}
    (h : toLex (a, x) ≤ toLex (b, y)) : a ≤ b := by
  rcases (Prod.Lex.le_iff (a, x) (b, y)).mp h with h1 | ⟨h1, _⟩
  · exact le_of_lt h1
  · exact le_of_eq h1

theorem lex_le_snd_of_eq {α β : Type} [PartialOrder α] [Preorder β] {a b : α} {x y : β}
    (h : toLex (a, x) ≤ toLex (b, y)) (he : a = b) : x ≤ y := by
  rcases (Prod.Lex.le_iff (a, x) (b, y)).mp h with h1 | ⟨_, h2⟩
  · subst he; exact absurd h1 (lt_irrefl a)
  · exact h2

theorem keyedLe_trans {α K : Type} [LinearOrder K] (key : α → K) :
    ∀ p q r : Nat × α, keyedLe key p q → keyedLe key q r → keyedLe key p r := by
  intro p q r h1 h2
  simp only [keyedLe, decide_eq_true_eq] at h1 h2 ⊢
  exact le_trans h1 h2

theorem keyedLe_total {α K : Type} [LinearOrder K] (key : α → K) :
    ∀ p q : Nat × α, keyedLe key p q || keyedLe key q p := by
  intro p q
  simp only [keyedLe, Bool.or_eq_true, decide_eq_true_eq]
  exact le_total _ _

theorem insertSorted_perm {α : Type} (le : α → α → Bool) (x : α) :
    ∀ l : List α, (insertSorted le x l).Perm (x :: l)
  | [] => List.Perm.refl [x]
  | y :: ys => by
    simp only [insertSorted]
    by_cases h : le x y
    · simp [h]
    · simp only [h, if_neg, Bool.false_eq_true, not_false_eq_true]
      exact ((insertSorted_perm le x ys).cons y).trans (List.Perm.swap x y ys)

theorem insertionSort_perm {α : Type} (le : α → α → Bool) :
    ∀ l : List α, (insertionSort le l).Perm l
  | [] => List.Perm.refl []
  | x :: xs => by
    simp only [insertionSort]
    exact (insertSorted_perm le x (insertionSort le xs)).trans
      ((insertionSort_perm le xs).cons x)

theorem insertSorted_pairwise {α : Type} (le : α → α → Bool)
    (trans : ∀ p q r : α, le p q → le q r → le p r)
    (total : ∀ p q : α, le p q || le q p) (x : α) :
    ∀ l : List α, l.Pairwise (fun p q => le p q) →
      (insertSorted le x l).Pairwise (fun p q => le p q)
  | [], _ => by simp [insertSorted]
  | y :: ys, h => by
    simp only [insertSorted]
    by_cases hxy : le x y
    · rw [if_pos hxy]
      refine List.Pairwise.cons ?_ h
      intro z hz
      rcases List.mem_cons.mp hz with rfl | hz
      · exact hxy
      · exact trans x y z hxy (List.rel_of_pairwise_cons h hz)
    · have hyx : le y x := by
        have := total x y
        simp only [Bool.or_eq_true] at this
        rcases this with h1 | h1
        · exact absurd h1 hxy
        · exact h1
      rw [if_neg hxy]
      refine List.Pairwise.cons ?_ (insertSorted_pairwise le trans total x ys h.tail)
      intro z hz
      have hz2 := (insertSorted_perm le x ys).mem_iff.mp hz
      rcases List.mem_cons.mp hz2 with rfl | hz3
      · exact hyx
      · exact List.rel_of_pairwise_cons h hz3

theorem insertionSort_pairwise {α : Type} (le : α → α → Bool)
    (trans : ∀ p q r : α, le p q → le q r → le p r)
    (total : ∀ p q : α, le p q || le q p) :
    ∀ l : List α, (insertionSort le l).Pairwise (fun p q => le p q)
  | [] => List.Pairwise.nil
  | x :: xs => by
    simp only [insertionSort]
    exact insertSorted_pairwise le trans total x (insertionSort le xs)
      (insertionSort_pairwise le trans total xs)

theorem sort_values_perm {α K : Type} [LinearOrder K] (key : α → K) (l : List α) :
    (sort_values key l).Perm l := by
  have h1 : (insertionSort (keyedLe key) l.enum).Perm l.enum :=
    insertionSort_perm (keyedLe key) l.enum
  have h2 := h1.map Prod.snd
  rw [List.enum_map_snd] at h2
  exact h2

theorem sort_values_pairwise {α K : Type} [LinearOrder K] (key : α → K) (l : List α) :
    (sort_values key l).Pairwise (fun r s => key r ≤ key s) := by
  have hs := insertionSort_pairwise (keyedLe key) (keyedLe_trans key) (keyedLe_total key) l.enum
  refine hs.map Prod.snd ?_
  intro p q hpq
  simp only [keyedLe, decide_eq_true_eq] at hpq
  exact lex_le_fst hpq

theorem sort_values_stable {α K : Type} [LinearOrder K] (key : α → K) (l : List α) :
    (insertionSort (keyedLe key) l.enum).Pairwise
      (fun p q => key p.2 = key q.2 → p.1 < q.1) := by
  have hs := insertionSort_pairwise (keyedLe key) (keyedLe_trans key) (keyedLe_total key) l.enum
  have hperm : (insertionSort (keyedLe key) l.enum).Perm l.enum :=
    insertionSort_perm (keyedLe key) l.enum
  have hnodup : ((insertionSort (keyedLe key) l.enum).map Prod.fst).Nodup := by
    have h1 : (l.enum.map Prod.fst).Nodup := by
      rw [List.enum_map_fst]; exact List.nodup_range _
    exact ((hperm.map Prod.fst).nodup_iff).mpr h1
  have hne : (insertionSort (keyedLe key) l.enum).Pairwise (fun p q => p.1 ≠ q.1) := by
    have h2 : ((insertionSort (keyedLe key) l.enum).map Prod.fst).Pairwise
        (fun a b => a ≠ b) := hnodup
    exact (List.pairwise_map).mp h2
  refine (hs.and hne).imp ?_
  intro p q hpq hk
  rcases hpq with ⟨h1, h2⟩
  simp only [keyedLe, decide_eq_true_eq] at h1
  exact lt_of_le_of_ne (lex_le_snd_of_eq h1 hk) h2

/-! ### Helper lemmas about deduplication and splitting -/

theorem dedupKeepFirst_sublist : ∀ (seen l : List String), (dedupKeepFirst seen l).Sublist l
  | _, [] => List.Sublist.refl []
  | seen, f :: fs => by
    simp only [dedupKeepFirst]
    by_cases h : f ∈ seen
    · rw [if_pos h]; exact (dedupKeepFirst_sublist seen fs).cons f
    · rw [if_neg h]; exact (dedupKeepFirst_sublist (f :: seen) fs).cons₂ f

theorem mem_dedupKeepFirst : ∀ (seen l : List String) (x : String),
    x ∈ dedupKeepFirst seen l ↔ (x ∈ l ∧ x ∉ seen)
  | _, [], x => by simp [dedupKeepFirst]
  | seen, f :: fs, x => by
    simp only [dedupKeepFirst]
    by_cases h : f ∈ seen
    · rw [if_pos h, mem_dedupKeepFirst seen fs x]
      constructor
      · rintro ⟨hm, hn⟩; exact ⟨List.mem_cons_of_mem f hm, hn⟩
      · rintro ⟨hor, hn⟩
        rcases List.mem_cons.mp hor with rfl | hm
        · exact absurd h hn
        · exact ⟨hm, hn⟩
    · rw [if_neg h]
      constructor
      · intro hx
        rcases List.mem_cons.mp hx with rfl | hx2
        · exact ⟨List.mem_cons_self x fs, h⟩
        · rcases (mem_dedupKeepFirst (f :: seen) fs x).mp hx2 with ⟨hm, hn⟩
          exact ⟨List.mem_cons_of_mem f hm, fun hs => hn (List.mem_cons_of_mem f hs)⟩
      · rintro ⟨hor, hn⟩
        rcases List.mem_cons.mp hor with rfl | hm
        · exact List.mem_cons_self x _
        · by_cases hxf : x = f
          · subst hxf; exact List.mem_cons_self x _
          · refine List.mem_cons_of_mem f ((mem_dedupKeepFirst (f :: seen) fs x).mpr ⟨hm, ?_⟩)
            intro hs
            rcases List.mem_cons.mp hs with h1 | h1
            · exact hxf h1
            · exact hn h1

theorem dedupKeepFirst_nodup : ∀ (seen l : List String), (dedupKeepFirst seen l).Nodup
  | _, [] => List.nodup_nil
  | seen, f :: fs => by
    simp only [dedupKeepFirst]
    by_cases h : f ∈ seen
    · rw [if_pos h]; exact dedupKeepFirst_nodup seen fs
    · rw [if_neg h]
      rw [List.nodup_cons]
      refine ⟨?_, dedupKeepFirst_nodup (f :: seen) fs⟩
      intro hmem
      rcases (mem_dedupKeepFirst (f :: seen) fs f).mp hmem with ⟨_, hn⟩
      exact hn (List.mem_cons_self f seen)

theorem splitChar_ne_nil (c : Char) : ∀ l : List Char, splitChar c l ≠ []
  | [] => by simp [splitChar]
  | x :: xs => by
    simp only [splitChar]
    by_cases h : x = c
    · rw [if_pos h]; exact List.cons_ne_nil _ _
    · rw [if_neg h]
      split
      · exact List.cons_ne_nil _ _
      · exact List.cons_ne_nil _ _

theorem splitChar_headD (c : Char) :
    ∀ l : List Char, (splitChar c l).headD [] = l.takeWhile (fun x => x != c)
  | [] => rfl
  | x :: xs => by
    simp only [splitChar, List.takeWhile_cons]
    by_cases h : x = c
    · rw [if_pos h]
      simp [h]
    · rw [if_neg h]
      have hne := splitChar_ne_nil c xs
      have IH := splitChar_headD c xs
      cases hs : splitChar c xs with
      | nil => exact absurd hs hne
      | cons seg segs =>
        rw [hs] at IH
        simp only [List.headD_cons] at IH ⊢
        have hbne : (x != c) = true := by simp [bne, h]
        simp [hbne, IH]

theorem firstSegAux_no_space :
    ∀ l : List Char, (∀ c ∈ firstSegmentSpec.firstSegAux l, c ≠ ' ') →
      l.takeWhile (fun x => x != ' ') = firstSegmentSpec.firstSegAux l
  | [], _ => rfl
  | x :: xs, h => by
    simp only [firstSegmentSpec.firstSegAux] at h ⊢
    by_cases hp : [' ', '|', ' '].isPrefixOf (x :: xs)
    · rw [if_pos hp]
      have hx : x = ' ' := by
        simp only [List.isPrefixOf, Bool.and_eq_true, beq_iff_eq] at hp
        exact hp.1.symm
      subst hx
      simp [List.takeWhile_cons]
    · rw [if_neg hp]
      rw [if_neg hp] at h
      have hx : x ≠ ' ' := h x (List.mem_cons_self x _)
      have hbne : (x != ' ') = true := by simp [bne, hx]
      rw [List.takeWhile_cons, hbne]
      simp only [if_true]
      rw [firstSegAux_no_space xs (fun c hc => h c (List.mem_cons_of_mem x hc))]

/-! ### Claim theorems -/

/-- C2, counterexample.  The claim says `build` fails with `InvalidArgument`
for every `resultLimit ≤ 0`; in the code building the query is plain
f-string interpolation with no validation, so at `resultLimit = 0` (and
`-1`) it succeeds and returns the interpolated query string. -/
theorem c2_counterexample :
    build QueryDomain.ontologyVocabTaxonomy 0 =
      Except.ok (queryText QueryDomain.ontologyVocabTaxonomy 0)
    ∧ build QueryDomain.software (-1) = Except.ok (queryText QueryDomain.software (-1)) :=
  ⟨rfl, rfl⟩

/-- C2, amended.  For every `resultLimit` (positive or not) and either
domain, `build` returns the query string without raising — the template is
a pure f-string with the limit interpolated once; no `InvalidArgument`
validation exists (the sidebar slider keeps the limit between 50 and 2000
in the app). -/
theorem c2_build_never_fails :
    ∀ (d : QueryDomain) (n : Int),
      build d n = Except.ok (queryText d n)
      ∧ BASE_QUERY_ONTO_VOCAB n =
          ontoQueryHead ++ partOfSelectLine ++ ontoQueryMid ++ toString n ++ ontoQueryPost
      ∧ BASE_QUERY_SOFTWARE n =
          swQueryHead ++ partOfSelectLine ++ swQueryMid ++ toString n ++ swQueryPost
      ∧ limitSliderRange = (50, 2000) :=
  fun _ _ => ⟨rfl, rfl, rfl, rfl⟩

/-- C6.  Flattening is total over bindings with absent optional fields:
whenever the two unconditionally accessed variables are present, the
flattener succeeds, and each of the four optional fields that is absent
from the binding comes out as the empty string. -/
theorem c6_optional_fields_default_empty :
    ∀ (b : RawBinding) (lab uri : String),
      b.lookup "itemLabel" = some lab →
      b.lookup "item" = some uri →
      ∃ row : FlatRow, flattenBinding b = Except.ok row
        ∧ row.item = lab ∧ row.wikidata = uri
        ∧ (b.lookup "officialWebsites" = none → row.officialWebsites = "")
        ∧ (b.lookup "licenses" = none → row.licenses = "")
        ∧ (b.lookup "partOf" = none → row.partOf = "")
        ∧ (b.lookup "latestReleaseDate" = none → row.latestRelease = "") := by
  intro b lab uri h1 h2
  refine ⟨{ item := lab, wikidata := uri,
            officialWebsites := getValueD b "officialWebsites",
            licenses := getValueD b "licenses",
            partOf := getValueD b "partOf",
            latestRelease := getValueD b "latestReleaseDate" }, ?_, rfl, rfl, ?_, ?_, ?_, ?_⟩
  · simp only [flattenBinding, getValue, h1, h2]
    rfl
  · intro h; simp [getValueD, h]
  · intro h; simp [getValueD, h]
  · intro h; simp [getValueD, h]
  · intro h; simp [getValueD, h]

/-- C6, witness: a binding carrying only the two mandatory variables. -/
theorem c6_witness :
    bindingMandatoryOnly.lookup "officialWebsites" = none
    ∧ ∃ row : FlatRow, flattenBinding bindingMandatoryOnly = Except.ok row
        ∧ row.item = "Foo" ∧ row.wikidata = "http://www.wikidata.org/entity/Q42"
        ∧ (bindingMandatoryOnly.lookup "officialWebsites" = none → row.officialWebsites = "")
        ∧ (bindingMandatoryOnly.lookup "licenses" = none → row.licenses = "")
        ∧ (bindingMandatoryOnly.lookup "partOf" = none → row.partOf = "")
        ∧ (bindingMandatoryOnly.lookup "latestReleaseDate" = none → row.latestRelease = "") :=
  ⟨by decide,
   c6_optional_fields_default_empty bindingMandatoryOnly "Foo"
     "http://www.wikidata.org/entity/Q42" (by decide) (by decide)⟩

/-- C8, counterexample.  The claim says the software query and flattener do
not populate `partOf`; in fact the software query template contains the
very same `?partOf` aggregation line as the ontology one, and the (shared)
flattener fills the field, so a software binding carrying a `partOf`
aggregate produces a row with nonempty `partOf`. -/
theorem c8_counterexample :
    BASE_QUERY_SOFTWARE 500 =
      swQueryHead ++ partOfSelectLine ++ swQueryMid ++ toString (500 : Int) ++ swQueryPost
    ∧ flattenBinding bindingSwWithPartOf = Except.ok rowSwWithPartOf
    ∧ rowSwWithPartOf.partOf = "X"
    ∧ rowSwWithPartOf.partOf ≠ "" :=
  ⟨rfl, by decide, rfl, by decide⟩

/-- C8, amended.  Both query templates select the `?partOf` aggregate and
the single flattener populates the field for every row of either domain;
what distinguishes the Software domain is only the final column
projection, whose `desired_cols` list omits "Part of" (while the
ontology/vocabulary projection includes it), so `partOf` never reaches the
displayed software table. -/
theorem c8_partof_selected_but_projected_away :
    (∀ n : Int, BASE_QUERY_SOFTWARE n =
        swQueryHead ++ partOfSelectLine ++ swQueryMid ++ toString n ++ swQueryPost)
    ∧ (∀ n : Int, BASE_QUERY_ONTO_VOCAB n =
        ontoQueryHead ++ partOfSelectLine ++ ontoQueryMid ++ toString n ++ ontoQueryPost)
    ∧ (∀ (b : RawBinding) (row : FlatRow),
        flattenBinding b = Except.ok row → row.partOf = getValueD b "partOf")
    ∧ "Part of" ∉ desired_cols_software
    ∧ "Part of" ∈ desired_cols_onto := by
  refine ⟨fun _ => rfl, fun _ => rfl, ?_, by decide, by decide⟩
  intro b row h
  simp only [flattenBinding, getValue, bind, Except.bind] at h
  cases hl : b.lookup "itemLabel" with
  | none => rw [hl] at h; simp at h
  | some lab =>
    rw [hl] at h
    cases hi : b.lookup "item" with
    | none => rw [hi] at h; simp at h
    | some uri =>
      rw [hi] at h
      simp only [pure, Except.pure, Except.ok.injEq] at h
      rw [← h]

/-- C8, witness for the amended claim: the concrete software binding with
a `partOf` aggregate flows through the flattener into the `partOf` field,
which the software column projection then drops. -/
theorem c8_witness :
    rowSwWithPartOf.partOf = getValueD bindingSwWithPartOf "partOf"
    ∧ "Part of" ∉ desired_cols_software :=
  ⟨c8_partof_selected_but_projected_away.2.2.1 bindingSwWithPartOf rowSwWithPartOf (by decide),
   c8_partof_selected_but_projected_away.2.2.2.1⟩

/-- C9.  The CSV `formats` field is the pipe-joined, first-occurrence
deduplicated list of the (truthy) distribution formats; on formats
["ttl", "ttl", "csv"] it is "ttl|csv".  The deduplication keeps order (the
result is a sublist of the input) and exactly the input's values. -/
theorem c9_formats_summary :
    summarize_formats resourceTtlTtlCsv = "ttl|csv"
    ∧ (∀ r : Resource, summarize_formats r =
        String.intercalate "|" (dedupKeepFirst [] (r.distributions.filterMap truthyFormat)))
    ∧ (∀ fmts : List String,
        (dedupKeepFirst [] fmts).Nodup
        ∧ (dedupKeepFirst [] fmts).Sublist fmts
        ∧ (∀ x : String, x ∈ dedupKeepFirst [] fmts ↔ x ∈ fmts)) := by
  refine ⟨by decide, fun _ => rfl, fun fmts =>
    ⟨dedupKeepFirst_nodup [] fmts, dedupKeepFirst_sublist [] fmts, fun x => ?_⟩⟩
  rw [mem_dedupKeepFirst]
  simp

/-- C10.  The flattener accesses `itemLabel` and `item` unconditionally:
a binding lacking `itemLabel` makes flattening fail with a `KeyError` on
"itemLabel" (the dictionary literal is evaluated in source order), and a
binding with `itemLabel` but without `item` fails with a `KeyError` on
"item" — never an empty-string default. -/
theorem c10_mandatory_keys_raise :
    (∀ b : RawBinding, b.lookup "itemLabel" = none →
        flattenBinding b = Except.error (AppError.keyError "itemLabel"))
    ∧ (∀ (b : RawBinding) (v : String), b.lookup "itemLabel" = some v →
        b.lookup "item" = none →
        flattenBinding b = Except.error (AppError.keyError "item")) := by
  constructor
  · intro b h
    simp only [flattenBinding, getValue, h]
    rfl
  · intro b v h1 h2
    simp only [flattenBinding, getValue, h1, h2]
    rfl

/-- C10, witness: concrete bindings missing one of the two mandatory
variables. -/
theorem c10_witness :
    flattenBinding bindingNoLabel = Except.error (AppError.keyError "itemLabel")
    ∧ flattenBinding bindingNoItem = Except.error (AppError.keyError "item") :=
  ⟨c10_mandatory_keys_raise.1 bindingNoLabel (by decide),
   c10_mandatory_keys_raise.2 bindingNoItem "Foo" (by decide) (by decide)⟩

/-- C1.  Every execution of the transport client issues at most 2 HTTP
requests; and on a 429 first response whose `Retry-After` value parses
(absence parses as the default "5"), the client sleeps exactly the parsed
duration, issues exactly one retry, and a second 429 becomes a terminal
`HTTPError` carrying status 429 with no third request. -/
theorem c1_rate_limit_single_retry :
    (∀ env : Nat → HttpResponse, (run_wdqs env).requests ≤ 2)
    ∧ (∀ (env : Nat → HttpResponse) (ra : Int),
        (env 0).status = 429 →
        pyInt ((env 0).retryAfter.getD "5") = Except.ok ra →
        (run_wdqs env).requests = 2
        ∧ (run_wdqs env).sleeps = [ra]
        ∧ ((env 1).status = 429 →
            (run_wdqs env).outcome = Except.error (AppError.remoteError 429))) := by
  constructor
  · intro env
    simp only [run_wdqs]
    by_cases h : (env 0).status = 429
    · rw [if_pos h]
      cases hp : pyInt ((env 0).retryAfter.getD "5") <;> simp
    · rw [if_neg h]
      simp
  · intro env ra h429 hparse
    simp only [run_wdqs]
    rw [if_pos h429, hparse]
    refine ⟨rfl, rfl, ?_⟩
    intro h2
    simp [raise_for_status, h2]

/-- C1, witness: with both responses 429 (`Retry-After: 2` on the first),
the run issues exactly 2 requests, sleeps 2 seconds once, and ends in the
terminal 429 error. -/
theorem c1_witness :
    (run_wdqs envTwo429).requests = 2
    ∧ (run_wdqs envTwo429).sleeps = [2]
    ∧ (run_wdqs envTwo429).outcome = Except.error (AppError.remoteError 429)
    ∧ (run_wdqs envRetryThenOk).requests ≤ 2 :=
  ⟨(c1_rate_limit_single_retry.2 envTwo429 2 (by decide) (by decide)).1,
   (c1_rate_limit_single_retry.2 envTwo429 2 (by decide) (by decide)).2.1,
   (c1_rate_limit_single_retry.2 envTwo429 2 (by decide) (by decide)).2.2 (by decide),
   c1_rate_limit_single_retry.1 envRetryThenOk⟩

/-- C3, counterexample.  The claim says an unparseable `Retry-After` value
defaults to 5 and raises no error; in the code
`int(r.headers.get("Retry-After", "5"))` raises `ValueError` on e.g.
"abc", so the client neither sleeps nor retries. -/
theorem c3_counterexample :
    run_wdqs envBadHeader =
      { requests := 1, sleeps := [], outcome := Except.error AppError.valueError } := by
  decide

/-- C3, amended.  On a 429 first response the wait duration is taken from
the `Retry-After` header; an absent header defaults to 5 (via the default
string "5" fed to `int`); a present header that parses yields its value; a
present header that does not parse as an integer raises `ValueError`
before any sleep or retry. -/
theorem c3_retry_after_parsing :
    ∀ env : Nat → HttpResponse, (env 0).status = 429 →
      ((env 0).retryAfter = none →
          (run_wdqs env).sleeps = [5] ∧ (run_wdqs env).requests = 2)
      ∧ (∀ (s : String) (v : Int), (env 0).retryAfter = some s → pyInt s = Except.ok v →
          (run_wdqs env).sleeps = [v] ∧ (run_wdqs env).requests = 2)
      ∧ (∀ s : String, (env 0).retryAfter = some s →
          pyInt s = Except.error AppError.valueError →
          (run_wdqs env).sleeps = [] ∧ (run_wdqs env).requests = 1
          ∧ (run_wdqs env).outcome = Except.error AppError.valueError) := by
  intro env h429
  refine ⟨?_, ?_, ?_⟩
  · intro hnone
    simp only [run_wdqs]
    rw [if_pos h429, hnone]
    have h5 : pyInt (Option.getD none "5") = Except.ok 5 := by decide
    rw [h5]
    exact ⟨rfl, rfl⟩
  · intro s v hsome hparse
    simp only [run_wdqs]
    rw [if_pos h429, hsome]
    have hv : pyInt (Option.getD (some s) "5") = Except.ok v := by
      simpa [Option.getD] using hparse
    rw [hv]
    exact ⟨rfl, rfl⟩
  · intro s hsome hparse
    simp only [run_wdqs]
    rw [if_pos h429, hsome]
    have hv : pyInt (Option.getD (some s) "5") = Except.error AppError.valueError := by
      simpa [Option.getD] using hparse
    rw [hv]
    exact ⟨rfl, rfl, rfl⟩

/-- C3, witness: an absent header sleeps the default 5; the header "2"
sleeps 2; the header "abc" raises `ValueError` after a single request. -/
theorem c3_witness :
    ((run_wdqs envNoHeader).sleeps = [5] ∧ (run_wdqs envNoHeader).requests = 2)
    ∧ (run_wdqs envRetryThenOk).sleeps = [2]
    ∧ (run_wdqs envBadHeader).sleeps = []
    ∧ (run_wdqs envBadHeader).outcome = Except.error AppError.valueError :=
  ⟨(c3_retry_after_parsing envNoHeader (by decide)).1 (by decide),
   ((c3_retry_after_parsing envRetryThenOk (by decide)).2.1 "2" 2 (by decide) (by decide)).1,
   ((c3_retry_after_parsing envBadHeader (by decide)).2.2 "abc" (by decide) (by decide)).1,
   ((c3_retry_after_parsing envBadHeader (by decide)).2.2 "abc" (by decide) (by decide)).2.2⟩

/-- C4.  The software sort is a permutation of its input ordered by the
key (release date descending with unparseable dates last, website flag
descending, license flag descending, name ascending) — encoded in
`swRecKey` so that the pandas ordering is plain ascending lexicographic
comparison; every parsed date precedes the unparseable-date code; and the
concrete inputs with dates [2020-01-01, not-a-date, 2022-05-01] come out
as [2022-05-01, 2020-01-01, not-a-date]. -/
theorem c4_software_sort_order :
    (∀ l : List FlatRow, (sort_values_software l).Perm l)
    ∧ (∀ l : List FlatRow,
        (sort_values_software l).Pairwise (fun r s => swRecKey r ≤ swRecKey s))
    ∧ (∀ y m d : Nat, dateCode (some (y, m, d)) < dateCode none)
    ∧ sort_values_software [swRow2020, swRowBad, swRow2022] = [swRow2022, swRow2020, swRowBad] := by
  refine ⟨fun l => sort_values_perm swRecKey l, fun l => sort_values_pairwise swRecKey l,
    ?_, by decide⟩
  intro y m d
  simp only [dateCode]
  have hn : (0 : Int) ≤ Int.ofNat (y * 10000 + m * 100 + d) := Int.ofNat_nonneg _
  omega

/-- C5, counterexample.  The claim says `primaryWebsite` is the first
" | "-delimited segment of `officialWebsites`; pandas treats the split
pattern " | " as a regular expression matching a single space, so for the
input "a b" — whose first " | "-delimited segment is the whole string
"a b" — the code yields "a". -/
theorem c5_counterexample :
    primaryWebsite "a b" = "a"
    ∧ firstSegmentSpec "a b" = "a b"
    ∧ primaryWebsite "a b" ≠ firstSegmentSpec "a b" :=
  ⟨by decide, by decide, by decide⟩

/-- C5, amended.  `hasWebsite` is true exactly when the stripped
`officialWebsites` is nonempty (so a whitespace-only value gives false);
`primaryWebsite` is the prefix of `officialWebsites` up to its first space
character (the split pattern " | " is a regex matching one space), which
coincides with the first " | "-delimited segment whenever that segment
contains no space — in particular for URI lists such as
"http://x | http://y", where it is "http://x" — and is empty for the empty
input. -/
theorem c5_website_flags_and_primary :
    (∀ s : String, hasWebsite s = true ↔ pyStrip s ≠ "")
    ∧ hasWebsite " " = false
    ∧ hasWebsite "http://x | http://y" = true
    ∧ primaryWebsite "http://x | http://y" = "http://x"
    ∧ primaryWebsite "" = ""
    ∧ (∀ s : String, (∀ c ∈ (firstSegmentSpec s).data, c ≠ ' ') →
        primaryWebsite s = firstSegmentSpec s) := by
  refine ⟨?_, by decide, by decide, by decide, by decide, ?_⟩
  · intro s
    simp [hasWebsite, bne_iff_ne]
  · intro s h
    have hne := splitChar_ne_nil ' ' s.data
    cases hs : splitChar ' ' s.data with
    | nil => exact absurd hs hne
    | cons seg segs =>
      have hseg : seg = s.data.takeWhile (fun x => x != ' ') := by
        have hh := splitChar_headD ' ' s.data
        rw [hs] at hh
        simpa using hh
      have haux : s.data.takeWhile (fun x => x != ' ') = firstSegmentSpec.firstSegAux s.data :=
        firstSegAux_no_space s.data h
      show (pySplitWebsites s).headD "" = firstSegmentSpec s
      simp only [pySplitWebsites, hs, List.map_cons, List.headD_cons]
      rw [hseg, haux]
      rfl

/-- C5, witness: the two-URI input satisfies the no-space condition on its
first segment, and the code's primary website agrees with the
specification's first " | "-delimited segment there. -/
theorem c5_witness :
    primaryWebsite "http://x | http://y" = firstSegmentSpec "http://x | http://y" :=
  c5_website_flags_and_primary.2.2.2.2.2 "http://x | http://y" (by decide)

/-- C7.  Both domain sorts are stable: in the position-tagged sorted
sequence (whose projection to rows is exactly `sort_values_software`
resp. `sort_values_onto`), any two rows with equal full sort keys occur in
strictly increasing input-position order. -/
theorem c7_sort_stability :
    ∀ l : List FlatRow,
      sort_values_software l = (insertionSort (keyedLe swRecKey) l.enum).map Prod.snd
      ∧ sort_values_onto l = (insertionSort (keyedLe ovRecKey) l.enum).map Prod.snd
      ∧ (insertionSort (keyedLe swRecKey) l.enum).Pairwise
          (fun p q => swRecKey p.2 = swRecKey q.2 → p.1 < q.1)
      ∧ (insertionSort (keyedLe ovRecKey) l.enum).Pairwise
          (fun p q => ovRecKey p.2 = ovRecKey q.2 → p.1 < q.1) :=
  fun l => ⟨rfl, rfl, sort_values_stable swRecKey l, sort_values_stable ovRecKey l⟩
